import Mathlib

/-!
Verification of the cart/order core of `app/src/chemist4u.py` (Chemist4U).

The program persists its cart as a CSV file whose rows are all strings; a
cart file is modelled as the list of its data rows (`CartRow`), with the
constant header row `id,name,intensity,disease,cost,quantity` left
implicit: an empty `List CartRow` is the header-only file.  Python floats
are modelled as exact rationals (all money values in the program are
2-decimal literals, on which float arithmetic is exact), and Python's
lenient numeric parsing (`int(...)` / `float(...)` with `try/except`
defaults) is modelled by `Option`-returning parsers that are faithful on
the canonical decimal notation this program reads and writes (exponent
notation, `inf`/`nan`, embedded underscores and surrounding whitespace,
which never occur in the program's own files, are parsed as failures).
Interactive input loops, screen clearing and animations are presentation
glue outside the modelled core; the nondeterministic tracking id of
`generate_tracking_id` is passed in as a parameter.
-/

/-- Numeric value of an ASCII digit character, `none` on any other
character (the failure branch of Python's lenient `int`/`float` parsing). -/
def charToDigit? (c : Char) : Option Nat :=
  if 48 ≤ c.toNat ∧ c.toNat ≤ 57 then some (c.toNat - 48) else none

/-- ASCII digit character of a value `< 10`. -/
def digitToChar (d : Nat) : Char := Char.ofNat (48 + d)

/-- Base-10 big-endian digit characters of `n`, with explicit fuel so that
the recursion is structural; `natCharsAux n n` is the digit string of `n`
(empty for `n = 0`). -/
def natCharsAux : Nat → Nat → List Char
  | 0, _ => []
  | fuel + 1, n => if n = 0 then [] else natCharsAux fuel (n / 10) ++ [digitToChar (n % 10)]

/-- Models Python `str` on an `int`: minus sign for negatives followed by
the base-10 digits.  This is what `csv.writer` emits for the integer
`id` and `quantity` fields in `write_cart_from_items`. -/
def pyStr (i : Int) : String :=
  if i = 0 then "0"
  else if i < 0 then ⟨'-' :: natCharsAux i.natAbs i.natAbs⟩
  else ⟨natCharsAux i.natAbs i.natAbs⟩

/-- Folds a big-endian digit-character list onto an accumulator; `none` as
soon as a non-digit character is met. -/
def readDigits : List Char → Nat → Option Nat
  | [], acc => some acc
  | c :: cs, acc =>
    match charToDigit? c with
    | some d => readDigits cs (acc * 10 + d)
    | none => none

/-- Character-list core of `pyIntOfStr`: an optional minus sign followed
by at least one digit; anything else raises, i.e. returns `none`. -/
def pyIntOfChars : List Char → Option Int
  | [] => none
  | c :: cs =>
    if c = '-' then
      match cs with
      | [] => none
      | _ :: _ => (readDigits cs 0).map fun n => -(n : Int)
    else (readDigits (c :: cs) 0).map fun n => (n : Int)

/-- Models Python `int(s)` (inside `try/except` in `Medicine.__init__` and
`read_cart`), faithful on the canonical integer notation this program
writes. -/
def pyIntOfStr (s : String) : Option Int := pyIntOfChars s.data

/-- Consumes a maximal run of digit characters, returning their value,
their count and the rest of the input. -/
def takeDigitsAux : List Char → Nat → Nat → Nat × Nat × List Char
  | [], v, k => (v, k, [])
  | c :: cs, v, k =>
    match charToDigit? c with
    | some d => takeDigitsAux cs (v * 10 + d) (k + 1)
    | none => (v, k, c :: cs)

/-- Models Python `float(s)` (inside `try/except` in `Medicine.__init__`),
with floats as exact rationals: an optional minus sign, then decimal
notation `digits`, `digits.digits`, `digits.` or `.digits`. -/
def pyFloatOfStr (s : String) : Option ℚ :=
  let sc : ℚ × List Char :=
    match s.data with
    | '-' :: rest => (-1, rest)
    | cs => (1, cs)
  let ipr := takeDigitsAux sc.2 0 0
  match ipr.2.2 with
  | [] => if ipr.2.1 = 0 then none else some (sc.1 * (ipr.1 : ℚ))
  | '.' :: r2 =>
    let fpr := takeDigitsAux r2 0 0
    if fpr.2.2 = [] ∧ 0 < ipr.2.1 + fpr.2.1 then
      some (sc.1 * ((ipr.1 : ℚ) + (fpr.1 : ℚ) / (10 : ℚ) ^ fpr.2.1))
    else none
  | _ => none

/-- Models Python `str.lower` on the ASCII text this program handles. -/
def pyLowerChar (c : Char) : Char :=
  if 'A' ≤ c ∧ c ≤ 'Z' then Char.ofNat (c.toNat + 32) else c

/-- Models Python `str.lower`, character by character. -/
def pyLower (s : String) : String := ⟨s.data.map pyLowerChar⟩

/-- Models Python `str.strip()`: drop whitespace from both ends. -/
def pyStrip (s : String) : String :=
  ⟨((s.data.dropWhile Char.isWhitespace).reverse.dropWhile Char.isWhitespace).reverse⟩

/-- The composition `.strip().lower()` used on both sides of every disease
comparison in `find_by_disease` and in `place_order`'s approximate search. -/
def pyNorm (s : String) : String := pyLower (pyStrip s)

/-- Models Python's substring test `needle in hay` on character lists. -/
def pyInStr : List Char → List Char → Bool
  | needle, [] => needle.isEmpty
  | needle, c :: rest => needle.isPrefixOf (c :: rest) || pyInStr needle rest

/-- Models Python's substring test `sub in s` on strings. -/
def pyContains (sub s : String) : Bool := pyInStr sub.data s.data

/-- The in-memory `Medicine` object (`class Medicine`): integer id,
string descriptive fields, float cost (as an exact rational) and integer
quantity (initialised to 1 by the constructor). -/
structure Medicine where
  id : Int
  name : String
  intensity : String
  disease : String
  cost : ℚ
  quantity : Int
deriving DecidableEq

/-- One data row of the persisted cart CSV file: six string fields, as
`csv.DictReader`/`csv.writer` see them.  The constant header row is
implicit; the header-only file is the empty row list. -/
structure CartRow where
  id : String
  name : String
  intensity : String
  disease : String
  cost : String
  quantity : String
deriving DecidableEq

/-- One receipt file written by `save_bill`: customer data, the billed
items, the grand total and the tracking id that keys the filename. -/
structure Receipt where
  customer : String
  address : String
  phone : String
  items : List Medicine
  total : ℚ
  tracking_id : String
deriving DecidableEq

/-- The persistent state the cart/billing core touches: the cart CSV file
and the set of receipt files in the output folder. -/
structure ShopState where
  cart_file : List CartRow
  bills : List Receipt
deriving DecidableEq

/-- The error signals of the spec's error model that the modelled core
reports to its caller: `notFound` is the "Medicine ID not found in cart."
refusal of `delete_from_cart`, `emptyCart` is the "Cart is empty!"
refusal of `bill_process`.  In the source these are printed messages
followed by an abort of the operation. -/
inductive AppError where
  | notFound
  | emptyCart
deriving DecidableEq

/-- `read_cart` (source lines 133-148): parse every row of the cart file,
skipping rows whose `id` field is empty (Python's `if not row.get("id")`),
defaulting an unparsable id to `0`, an unparsable cost to `0.0` (in
`Medicine.__init__`) and an unparsable quantity to `1`. -/
def read_cart (rows : List CartRow) : List Medicine :=
  rows.filterMap fun r =>
    if r.id = "" then none
    else some
      { id := (pyIntOfStr r.id).getD 0
        name := r.name
        intensity := r.intensity
        disease := r.disease
        cost := (pyFloatOfStr r.cost).getD 0
        quantity := (pyIntOfStr r.quantity).getD 1 }

/-- Models the f-string `f"{cost:.2f}"` used when writing a row: the cost
rounded to hundredths, rendered with exactly two decimal places.  (Python
rounds ties on the underlying binary float to even; ties never arise on
the program's 2-decimal money values, where the conversion is exact.) -/
def formatCost2 (q : ℚ) : String :=
  let cents : Int := round (q * 100)
  let a : Nat := cents.natAbs
  (if cents < 0 then "-" else "")
    ++ pyStr ((a / 100 : Nat) : Int) ++ "."
    ++ (if a % 100 < 10 then "0" else "") ++ pyStr ((a % 100 : Nat) : Int)

/-- `write_cart_from_items` (source lines 151-157): full-replace write of
the cart file, header first, one row per item in order, with stringified
id and quantity and the cost formatted to two decimals. -/
def write_cart_from_items (items : List Medicine) : List CartRow :=
  items.map fun it =>
    { id := pyStr it.id
      name := it.name
      intensity := it.intensity
      disease := it.disease
      cost := formatCost2 it.cost
      quantity := pyStr it.quantity }

/-- `clear_cart` (source lines 160-163): rewrite the cart file with only
the header row. -/
def clear_cart : List CartRow := []

/-- The `for ... else` merge loop inside `append_to_cart` (source lines
169-176): bump the quantity of the first item whose id equals `med.id`
and stop; if no item matches, set `med.quantity = qty` and append `med`. -/
def append_items : List Medicine → Medicine → Int → List Medicine
  | [], med, qty => [{ med with quantity := qty }]
  | it :: rest, med, qty =>
    if it.id == med.id then { it with quantity := it.quantity + qty } :: rest
    else it :: append_items rest med qty

/-- `append_to_cart` (source lines 166-177) acting on the persisted cart
file: a non-positive quantity returns before the file is even read;
otherwise read the cart, merge-or-append, and write the file back. -/
def append_to_cart (rows : List CartRow) (med : Medicine) (qty : Int) : List CartRow :=
  if qty ≤ 0 then rows
  else write_cart_from_items (append_items (read_cart rows) med qty)

/-- The in-place `found.quantity -= qty_del` of `delete_from_cart` (source
line 278), applied to the first item with the given id. -/
def sub_qty_first : List Medicine → Int → Int → List Medicine
  | [], _, _ => []
  | it :: rest, pid, amount =>
    if it.id == pid then { it with quantity := it.quantity - amount } :: rest
    else it :: sub_qty_first rest pid amount

/-- The cart transformation of one accepted iteration of
`delete_from_cart`'s loop (source lines 260-281), after an id and an
amount have been read from the user: `notFound` if no item has the id
(lines 260-264); otherwise remove the found item entirely when
`amount >= found.quantity` (line 274-275, `items.remove(found)` removes
exactly the first id match), else decrement its quantity (line 278).
Entering id `0` is intercepted earlier as "cancel" by the presentation
loop (line 258) and never reaches this operation. -/
def remove_quantity (items : List Medicine) (pid amount : Int) :
    Except AppError (List Medicine) :=
  match items.find? (fun it => it.id == pid) with
  | none => .error .notFound
  | some found =>
    if found.quantity ≤ amount then .ok (items.eraseP (fun it => it.id == pid))
    else .ok (sub_qty_first items pid amount)

/-- One accepted iteration of `delete_from_cart` at the file level: on a
`notFound` refusal the loop `continue`s without writing, so the cart file
is untouched; on success the updated items are written back (line 281). -/
def delete_from_cart_step (rows : List CartRow) (pid amount : Int) :
    List CartRow × Option AppError :=
  match remove_quantity (read_cart rows) pid amount with
  | .error e => (rows, some e)
  | .ok items2 => (write_cart_from_items items2, none)

/-- `save_bill` (source lines 306-328): writes one new receipt file,
keyed by the tracking id, leaving existing receipts untouched. -/
def save_bill (name address phone : String) (items : List Medicine) (total : ℚ)
    (tracking_id : String) (bills : List Receipt) : List Receipt :=
  bills ++ [{ customer := name, address := address, phone := phone,
              items := items, total := total, tracking_id := tracking_id }]

/-- `bill_process` (source lines 331-362): read the cart; if it has no
entries, print the "Cart is empty!" refusal and return with nothing
changed; otherwise compute the grand total `sum(it.cost * it.quantity)`,
save a receipt under the (externally generated) tracking id, and clear
the cart file to header-only. -/
def bill_process (s : ShopState) (name address phone tracking_id : String) :
    ShopState × Option AppError :=
  let items := read_cart s.cart_file
  if items.isEmpty then (s, some AppError.emptyCart)
  else
    let total := (items.map fun it => it.cost * (it.quantity : ℚ)).sum
    let bills2 := save_bill name address phone items total tracking_id s.bills
    ({ cart_file := clear_cart, bills := bills2 }, none)

/-- `find_by_disease` (source lines 297-299): keep, in catalog order, the
products whose disease field equals the search term after stripping and
lowercasing both sides. -/
def find_by_disease (meds : List Medicine) (disease : String) : List Medicine :=
  meds.filter fun m => pyNorm m.disease == pyNorm disease

/-- The approximate search of `place_order` (source line 378): keep, in
catalog order, the products whose normalised disease field contains the
normalised search term as a substring. -/
def find_approx (meds : List Medicine) (disease : String) : List Medicine :=
  meds.filter fun m => pyContains (pyNorm disease) (pyNorm m.disease)

/-- What `place_order` surfaces for a search term (source lines 374-382):
the exact matches when there are any, otherwise the approximate matches,
labelled as such (and never auto-added to the cart). -/
inductive SearchOutcome where
  | exact (results : List Medicine)
  | approximate (results : List Medicine)
deriving DecidableEq

/-- The search step of `place_order` (source lines 374-382): the
approximate list is computed and shown only when the exact search comes
back empty. -/
def place_order_search (meds : List Medicine) (disease : String) : SearchOutcome :=
  let results := find_by_disease meds disease
  if results.isEmpty then .approximate (find_approx meds disease)
  else .exact results

/-- A cart-mutating request of the order workflow: an add-to-cart with a
quantity, or a deletion of an amount of a product id. -/
inductive CartOp where
  | add (med : Medicine) (qty : Int)
  | del (pid : Int) (amount : Int)

/-- Applies one cart-mutating request to the persisted cart file (a
refused deletion leaves the file unchanged). -/
def apply_op (rows : List CartRow) : CartOp → List CartRow
  | .add med qty => append_to_cart rows med qty
  | .del pid amount => (delete_from_cart_step rows pid amount).1

/-- The fixed sample catalog seeded by `ensure_folders_and_files` (source
lines 82-93), as `load_store` loads it. -/
def sample_store : List Medicine :=
  [⟨101, "Paracetamol", "500mg", "Fever", 20, 1⟩,
   ⟨102, "Dolo", "650mg", "Fever", 30, 1⟩,
   ⟨103, "Azithromycin", "250mg", "Infection", 85, 1⟩,
   ⟨104, "Amoxicillin", "500mg", "Infection", 60, 1⟩,
   ⟨105, "Cetirizine", "10mg", "Allergy", 30, 1⟩,
   ⟨106, "Omeprazole", "20mg", "Acidity", 50, 1⟩,
   ⟨107, "Multivitamin", "1tab", "General Health", 25, 1⟩,
   ⟨108, "Ibuprofen", "400mg", "Pain Relief", 45, 1⟩,
   ⟨109, "Cetraxal", "10mg", "Ear Infection", 120, 1⟩]

/-- The effect of one persistence round trip on a single in-memory item:
the integer id and quantity survive exactly, while the cost becomes
whatever parsing its 2-decimal rendering gives (the identity on the
2-decimal money values the program uses). -/
def reread (it : Medicine) : Medicine :=
  { it with cost := (pyFloatOfStr (formatCost2 it.cost)).getD 0 }

/-- A concrete persisted cart row: 2 Paracetamol at 20.00. -/
def row_para : CartRow := ⟨"101", "Paracetamol", "500mg", "Fever", "20.00", "2"⟩

/-- A concrete persisted cart row: 1 Azithromycin at 85.00. -/
def row_azith : CartRow := ⟨"103", "Azithromycin", "250mg", "Infection", "85.00", "1"⟩

/-- A concrete in-memory medicine, as `load_store` yields it. -/
def med_para : Medicine := ⟨101, "Paracetamol", "500mg", "Fever", 20, 1⟩

/-- The in-memory medicine that `read_cart` yields for `row_para`. -/
def med_para_read : Medicine :=
  ⟨101, "Paracetamol", "500mg", "Fever", (pyFloatOfStr "20.00").getD 0, 2⟩

/-! ### Helper lemmas: integer print/parse round trip -/

theorem charToDigit?_digitToChar (d : Nat) (h : d < 10) :
    charToDigit? (digitToChar d) = some d := by
  interval_cases d <;> rfl

theorem digitToChar_ne_dash (d : Nat) (h : d < 10) : digitToChar d ≠ '-' := by
  interval_cases d <;> decide

theorem readDigits_append (xs ys : List Char) (acc : Nat) :
    readDigits (xs ++ ys) acc = (readDigits xs acc).bind fun a => readDigits ys a := by
  induction xs generalizing acc with
  | nil => simp [readDigits]
  | cons c cs ih =>
    simp only [List.cons_append, readDigits]
    cases h : charToDigit? c with
    | none => simp
    | some d => simp [ih]

theorem readDigits_natCharsAux (fuel : Nat) :
    ∀ (n acc : Nat), n ≤ fuel →
      readDigits (natCharsAux fuel n) acc
        = some (acc * 10 ^ (natCharsAux fuel n).length + n) := by
  induction fuel with
  | zero =>
    intro n acc h
    interval_cases n
    simp [natCharsAux, readDigits]
  | succ fuel ih =>
    intro n acc h
    by_cases hn : n = 0
    · subst hn
      simp [natCharsAux, readDigits]
    · have hlt : n / 10 < n := Nat.div_lt_self (Nat.pos_of_ne_zero hn) (by norm_num)
      have hdiv : n / 10 ≤ fuel := by omega
      have hstep : natCharsAux (fuel + 1) n
          = natCharsAux fuel (n / 10) ++ [digitToChar (n % 10)] := by
        simp [natCharsAux, hn]
      have hd : charToDigit? (digitToChar (n % 10)) = some (n % 10) :=
        charToDigit?_digitToChar _ (Nat.mod_lt n (by norm_num))
      rw [hstep, readDigits_append, ih (n / 10) acc hdiv]
      simp only [Option.some_bind, readDigits, hd, List.length_append, List.length_cons,
        List.length_nil, Option.some.injEq]
      rw [Nat.zero_add, pow_succ, ← Nat.mul_assoc]
      generalize acc * 10 ^ (natCharsAux fuel (n / 10)).length = q
      omega

theorem natCharsAux_ne_nil (fuel n : Nat) (hn : n ≠ 0) (hf : fuel ≠ 0) :
    natCharsAux fuel n ≠ [] := by
  cases fuel with
  | zero => exact absurd rfl hf
  | succ fuel => simp [natCharsAux, hn]

theorem mem_natCharsAux (fuel : Nat) :
    ∀ (n : Nat) (c : Char), c ∈ natCharsAux fuel n → ∃ d, d < 10 ∧ c = digitToChar d := by
  induction fuel with
  | zero => intro n c h; simp [natCharsAux] at h
  | succ fuel ih =>
    intro n c h
    by_cases hn : n = 0
    · subst hn; simp [natCharsAux] at h
    · simp only [natCharsAux, if_neg hn, List.mem_append, List.mem_singleton] at h
      rcases h with h | h
      · exact ih _ _ h
      · exact ⟨n % 10, Nat.mod_lt n (by norm_num), h⟩

theorem pyStr_ne_empty (i : Int) : pyStr i ≠ "" := by
  by_cases h0 : i = 0
  · subst h0; simp only [pyStr, if_pos rfl]; decide
  · have hne : i.natAbs ≠ 0 := by omega
    by_cases hneg : i < 0
    · simp only [pyStr, if_neg h0, if_pos hneg]
      intro h
      have hd : '-' :: natCharsAux i.natAbs i.natAbs = ([] : List Char) :=
        congrArg String.data h
      exact List.noConfusion hd
    · simp only [pyStr, if_neg h0, if_neg hneg]
      intro h
      have hd : natCharsAux i.natAbs i.natAbs = ([] : List Char) := congrArg String.data h
      exact natCharsAux_ne_nil _ _ hne hne hd

theorem pyIntOfStr_pyStr (i : Int) : pyIntOfStr (pyStr i) = some i := by
  by_cases h0 : i = 0
  · subst h0; decide
  · have hne : i.natAbs ≠ 0 := by omega
    have hmain : readDigits (natCharsAux i.natAbs i.natAbs) 0 = some i.natAbs := by
      rw [readDigits_natCharsAux _ _ _ le_rfl]
      simp
    obtain ⟨c, cs, hcs⟩ :=
      List.exists_cons_of_ne_nil (natCharsAux_ne_nil i.natAbs i.natAbs hne hne)
    have hcdash : ¬(c = '-') := by
      have hc : c ∈ natCharsAux i.natAbs i.natAbs := by
        rw [hcs]; exact List.mem_cons_self _ _
      obtain ⟨d, hd10, hcd⟩ := mem_natCharsAux _ _ _ hc
      rw [hcd]; exact digitToChar_ne_dash d hd10
    by_cases hneg : i < 0
    · have hshape : pyIntOfStr (pyStr i) = pyIntOfChars ('-' :: natCharsAux i.natAbs i.natAbs) := by
        simp only [pyStr, if_neg h0, if_pos hneg]; rfl
      rw [hshape, hcs]
      simp only [pyIntOfChars, if_pos rfl, if_true]
      rw [← hcs, hmain]
      have hval : -(i.natAbs : Int) = i := by omega
      show some (-(i.natAbs : Int)) = some i
      rw [hval]
    · have hshape : pyIntOfStr (pyStr i) = pyIntOfChars (natCharsAux i.natAbs i.natAbs) := by
        simp only [pyStr, if_neg h0, if_neg hneg]; rfl
      rw [hshape, hcs]
      simp only [pyIntOfChars, hcdash, if_false]
      rw [← hcs, hmain]
      have hval : ((i.natAbs : Int)) = i := by omega
      show some ((i.natAbs : Int)) = some i
      rw [hval]

theorem pyStr_inj (a b : Int) (h : pyStr a = pyStr b) : a = b := by
  have ha := pyIntOfStr_pyStr a
  rw [h, pyIntOfStr_pyStr b] at ha
  exact (Option.some.injEq _ _ ▸ ha).symm

/-! ### Helper lemmas: reading back a written cart file -/

theorem reread_id (it : Medicine) : (reread it).id = it.id := rfl

theorem reread_quantity (it : Medicine) : (reread it).quantity = it.quantity := rfl

theorem read_cart_write (items : List Medicine) :
    read_cart (write_cart_from_items items) = items.map reread := by
  induction items with
  | nil => rfl
  | cons it rest ih =>
    simp only [write_cart_from_items, List.map_cons, read_cart, List.filterMap_cons] at ih ⊢
    rw [if_neg (pyStr_ne_empty it.id)]
    simp only [pyIntOfStr_pyStr, Option.getD_some]
    rw [ih]
    rfl

theorem read_cart_write_id (items : List Medicine) :
    (read_cart (write_cart_from_items items)).map Medicine.id = items.map Medicine.id := by
  rw [read_cart_write, List.map_map]
  rfl

theorem read_cart_write_quantity (items : List Medicine) :
    (read_cart (write_cart_from_items items)).map Medicine.quantity
      = items.map Medicine.quantity := by
  rw [read_cart_write, List.map_map]
  rfl

/-! ### Helper lemmas: the merge loop of append_to_cart -/

theorem append_items_not_mem (med : Medicine) (qty : Int) :
    ∀ (items : List Medicine), (∀ it ∈ items, it.id ≠ med.id) →
      append_items items med qty = items ++ [{ med with quantity := qty }] := by
  intro items
  induction items with
  | nil => intro _; rfl
  | cons it rest ih =>
    intro h
    have hne : (it.id == med.id) = false := by
      simp [h it (List.mem_cons_self _ _)]
    simp [append_items, hne, ih fun y hy => h y (List.mem_cons_of_mem _ hy)]

theorem append_items_first_match (med : Medicine) (qty : Int) :
    ∀ (l1 : List Medicine) (e : Medicine) (l2 : List Medicine),
      (∀ x ∈ l1, x.id ≠ med.id) → e.id = med.id →
      append_items (l1 ++ e :: l2) med qty
        = l1 ++ { e with quantity := e.quantity + qty } :: l2 := by
  intro l1
  induction l1 with
  | nil =>
    intro e l2 _ h2
    simp [append_items, h2]
  | cons x xs ih =>
    intro e l2 h1 h2
    have hne : (x.id == med.id) = false := by
      simp [h1 x (List.mem_cons_self _ _)]
    simp [append_items, hne, ih e l2 (fun y hy => h1 y (List.mem_cons_of_mem _ hy)) h2]

theorem mem_map_id_append_items (med : Medicine) (qty : Int) :
    ∀ (items : List Medicine) (x : Int),
      x ∈ (append_items items med qty).map Medicine.id
        ↔ x ∈ items.map Medicine.id ∨ x = med.id := by
  intro items
  induction items with
  | nil => intro x; simp [append_items]
  | cons it rest ih =>
    intro x
    by_cases hid : (it.id == med.id) = true
    · have hide : it.id = med.id := by simpa using hid
      rw [show append_items (it :: rest) med qty
            = { it with quantity := it.quantity + qty } :: rest from by
          simp [append_items, hid]]
      simp only [List.map_cons, List.mem_cons]
      constructor
      · rintro (h | h)
        · exact Or.inl (Or.inl h)
        · exact Or.inl (Or.inr h)
      · rintro ((h | h) | h)
        · exact Or.inl h
        · exact Or.inr h
        · exact Or.inl (by rw [h, ← hide])
    · simp only [Bool.not_eq_true] at hid
      rw [show append_items (it :: rest) med qty = it :: append_items rest med qty from by
          simp [append_items, hid]]
      simp only [List.map_cons, List.mem_cons, ih]
      tauto

theorem append_items_nodup (med : Medicine) (qty : Int) :
    ∀ (items : List Medicine), (items.map Medicine.id).Nodup →
      ((append_items items med qty).map Medicine.id).Nodup := by
  intro items
  induction items with
  | nil => intro _; simp [append_items]
  | cons it rest ih =>
    intro h
    simp only [List.map_cons, List.nodup_cons] at h
    by_cases hid : (it.id == med.id) = true
    · have hide : it.id = med.id := by simpa using hid
      simp only [append_items, hid, if_true, List.map_cons, List.nodup_cons]
      exact h
    · simp only [Bool.not_eq_true] at hid
      simp only [append_items, hid, Bool.false_eq_true, if_false, List.map_cons,
        List.nodup_cons]
      constructor
      · rw [mem_map_id_append_items]
        rintro (hmem | heq)
        · exact h.1 hmem
        · rw [heq] at hid
          simp at hid
      · exact ih h.2

/-! ### Helper lemmas: the delete loop of delete_from_cart -/

theorem sub_qty_first_map_id (pid amount : Int) :
    ∀ (items : List Medicine),
      (sub_qty_first items pid amount).map Medicine.id = items.map Medicine.id := by
  intro items
  induction items with
  | nil => rfl
  | cons it rest ih =>
    by_cases hid : (it.id == pid) = true
    · simp [sub_qty_first, hid]
    · simp only [Bool.not_eq_true] at hid
      simp [sub_qty_first, hid, ih]

theorem sub_qty_first_filter_ne (pid amount : Int) :
    ∀ (items : List Medicine),
      (sub_qty_first items pid amount).filter (fun it => !(it.id == pid))
        = items.filter (fun it => !(it.id == pid)) := by
  intro items
  induction items with
  | nil => rfl
  | cons it rest ih =>
    by_cases hid : (it.id == pid) = true
    · simp [sub_qty_first, hid, List.filter_cons, ih]
    · simp only [Bool.not_eq_true] at hid
      simp [sub_qty_first, hid, List.filter_cons, ih]

theorem sub_qty_first_find? (pid amount : Int) :
    ∀ (items : List Medicine),
      (sub_qty_first items pid amount).find? (fun it => it.id == pid)
        = (items.find? (fun it => it.id == pid)).map
            (fun e => { e with quantity := e.quantity - amount }) := by
  intro items
  induction items with
  | nil => rfl
  | cons it rest ih =>
    by_cases hid : (it.id == pid) = true
    · simp [sub_qty_first, hid, List.find?]
    · simp only [Bool.not_eq_true] at hid
      simp [sub_qty_first, hid, List.find?, ih]

theorem eraseP_filter_ne (pid : Int) :
    ∀ (items : List Medicine),
      (items.eraseP (fun it => it.id == pid)).filter (fun it => !(it.id == pid))
        = items.filter (fun it => !(it.id == pid)) := by
  intro items
  induction items with
  | nil => rfl
  | cons it rest ih =>
    by_cases hid : (it.id == pid) = true
    · simp [List.eraseP_cons, hid, List.filter_cons]
    · simp only [Bool.not_eq_true] at hid
      simp [List.eraseP_cons, hid, List.filter_cons, ih]

theorem eraseP_id_not_mem (pid : Int) :
    ∀ (items : List Medicine), (items.map Medicine.id).Nodup →
      ∀ it ∈ items.eraseP (fun it => it.id == pid), it.id ≠ pid := by
  intro items
  induction items with
  | nil => intro _ it hit; simp at hit
  | cons a rest ih =>
    intro h it hit
    simp only [List.map_cons, List.nodup_cons] at h
    by_cases hid : (a.id == pid) = true
    · rw [List.eraseP_cons, hid, cond_true] at hit
      have ha : a.id = pid := by simpa using hid
      intro heq
      have hmm : it.id ∈ List.map Medicine.id rest := List.mem_map_of_mem Medicine.id hit
      rw [heq, ← ha] at hmm
      exact h.1 hmm
    · simp only [Bool.not_eq_true] at hid
      rw [List.eraseP_cons, hid, cond_false] at hit
      rcases List.mem_cons.mp hit with rfl | hmem
      · simpa using hid
      · exact ih h.2 it hmem

theorem remove_quantity_eq_notfound (items : List Medicine) (pid amount : Int)
    (hfind : items.find? (fun it => it.id == pid) = none) :
    remove_quantity items pid amount = Except.error AppError.notFound := by
  unfold remove_quantity
  rw [hfind]

theorem remove_quantity_eq_found (items : List Medicine) (pid amount : Int)
    (found : Medicine)
    (hfind : items.find? (fun it => it.id == pid) = some found) :
    remove_quantity items pid amount
      = if found.quantity ≤ amount then
          Except.ok (items.eraseP (fun it => it.id == pid))
        else Except.ok (sub_qty_first items pid amount) := by
  unfold remove_quantity
  rw [hfind]

theorem remove_quantity_nodup (items : List Medicine) (pid amount : Int)
    (h : (items.map Medicine.id).Nodup) :
    ∀ out, remove_quantity items pid amount = Except.ok out →
      ((out.map Medicine.id).Nodup) := by
  intro out hout
  cases hfind : items.find? (fun it => it.id == pid) with
  | none =>
    rw [remove_quantity_eq_notfound items pid amount hfind] at hout
    exact Except.noConfusion hout
  | some found =>
    rw [remove_quantity_eq_found items pid amount found hfind] at hout
    by_cases hle : found.quantity ≤ amount
    · rw [if_pos hle] at hout
      rw [← Except.ok.inj hout]
      exact List.Nodup.sublist
        (List.Sublist.map Medicine.id (List.eraseP_sublist items)) h
    · rw [if_neg hle] at hout
      rw [← Except.ok.inj hout, sub_qty_first_map_id]
      exact h

/-! ### Helper lemmas: file-level operations -/

theorem delete_step_eq_error (rows : List CartRow) (pid amount : Int) (e : AppError)
    (h : remove_quantity (read_cart rows) pid amount = Except.error e) :
    delete_from_cart_step rows pid amount = (rows, some e) := by
  unfold delete_from_cart_step
  rw [h]

theorem delete_step_eq_ok (rows : List CartRow) (pid amount : Int) (out : List Medicine)
    (h : remove_quantity (read_cart rows) pid amount = Except.ok out) :
    delete_from_cart_step rows pid amount = (write_cart_from_items out, none) := by
  unfold delete_from_cart_step
  rw [h]

theorem apply_op_preserves_nodup (rows : List CartRow) (op : CartOp)
    (h : ((read_cart rows).map Medicine.id).Nodup) :
    ((read_cart (apply_op rows op)).map Medicine.id).Nodup := by
  cases op with
  | add med qty =>
    show ((read_cart (append_to_cart rows med qty)).map Medicine.id).Nodup
    unfold append_to_cart
    by_cases hq : qty ≤ 0
    · rw [if_pos hq]; exact h
    · rw [if_neg hq, read_cart_write_id]
      exact append_items_nodup med qty _ h
  | del pid amount =>
    cases hrq : remove_quantity (read_cart rows) pid amount with
    | error e =>
      show ((read_cart (delete_from_cart_step rows pid amount).1).map Medicine.id).Nodup
      rw [delete_step_eq_error rows pid amount e hrq]
      exact h
    | ok out =>
      show ((read_cart (delete_from_cart_step rows pid amount).1).map Medicine.id).Nodup
      rw [delete_step_eq_ok rows pid amount out hrq]
      show ((read_cart (write_cart_from_items out)).map Medicine.id).Nodup
      rw [read_cart_write_id]
      exact remove_quantity_nodup _ _ _ h out hrq

theorem foldl_apply_op_nodup (ops : List CartOp) :
    ((read_cart (ops.foldl apply_op [])).map Medicine.id).Nodup := by
  have main : ∀ (ops : List CartOp) (rows : List CartRow),
      ((read_cart rows).map Medicine.id).Nodup →
      ((read_cart (ops.foldl apply_op rows)).map Medicine.id).Nodup := by
    intro ops
    induction ops with
    | nil => intro rows h; exact h
    | cons op rest ih => intro rows h; exact ih _ (apply_op_preserves_nodup rows op h)
  exact main ops [] (by simp [read_cart])

theorem bill_process_empty (s : ShopState) (n a p t : String)
    (h : read_cart s.cart_file = []) :
    bill_process s n a p t = (s, some AppError.emptyCart) := by
  simp only [bill_process, h, List.isEmpty_nil, if_true]

theorem bill_process_nonempty (s : ShopState) (n a p t : String)
    (h : read_cart s.cart_file ≠ []) :
    bill_process s n a p t
      = ({ cart_file := [],
           bills := s.bills
             ++ [{ customer := n, address := a, phone := p,
                   items := read_cart s.cart_file,
                   total := ((read_cart s.cart_file).map
                     fun it => it.cost * (it.quantity : ℚ)).sum,
                   tracking_id := t }] }, none) := by
  have hie : (read_cart s.cart_file).isEmpty = false := by
    cases hr : read_cart s.cart_file with
    | nil => exact absurd hr h
    | cons x xs => rfl
  simp only [bill_process, hie, Bool.false_eq_true, if_false, save_bill, clear_cart]

/-! ### Helper lemmas: substring containment -/

theorem isPrefixOf_iff_exists (xs : List Char) :
    ∀ ys, xs.isPrefixOf ys = true ↔ ∃ t, ys = xs ++ t := by
  induction xs with
  | nil =>
    intro ys
    constructor
    · intro _; exact ⟨ys, rfl⟩
    · intro _
      cases ys with
      | nil => rfl
      | cons y ys => rfl
  | cons x xs ih =>
    intro ys
    cases ys with
    | nil =>
      constructor
      · intro hfalse; exact absurd hfalse (by simp [List.isPrefixOf])
      · rintro ⟨t, ht⟩; exact List.noConfusion ht
    | cons y ys =>
      rw [show (x :: xs).isPrefixOf (y :: ys) = ((x == y) && xs.isPrefixOf ys) from rfl]
      rw [Bool.and_eq_true, beq_iff_eq, ih]
      constructor
      · rintro ⟨rfl, t, rfl⟩; exact ⟨t, rfl⟩
      · rintro ⟨t, ht⟩
        injection ht with h1 h2
        exact ⟨h1.symm, t, h2⟩

theorem pyInStr_iff (needle : List Char) :
    ∀ hay, pyInStr needle hay = true ↔ ∃ l1 l2, hay = l1 ++ needle ++ l2 := by
  intro hay
  induction hay with
  | nil =>
    rw [show pyInStr needle [] = needle.isEmpty from rfl, List.isEmpty_iff]
    constructor
    · intro h; exact ⟨[], [], by simp [h]⟩
    · rintro ⟨l1, l2, h⟩
      rcases List.append_eq_nil.mp (List.append_eq_nil.mp h.symm).1 with ⟨_, hn⟩
      exact hn
  | cons c rest ih =>
    rw [show pyInStr needle (c :: rest)
          = (needle.isPrefixOf (c :: rest) || pyInStr needle rest) from rfl]
    rw [Bool.or_eq_true, isPrefixOf_iff_exists, ih]
    constructor
    · rintro (⟨t, ht⟩ | ⟨l1, l2, hl⟩)
      · exact ⟨[], t, by simp [ht]⟩
      · exact ⟨c :: l1, l2, by simp [hl]⟩
    · rintro ⟨l1, l2, hl⟩
      cases l1 with
      | nil => exact Or.inl ⟨l2, by simpa using hl⟩
      | cons a l1 =>
        injection hl with h1 h2
        exact Or.inr ⟨l1, l2, h2⟩

theorem append_to_cart_pos (rows : List CartRow) (med : Medicine) (qty : Int)
    (h : ¬qty ≤ 0) :
    append_to_cart rows med qty
      = write_cart_from_items (append_items (read_cart rows) med qty) := by
  unfold append_to_cart
  rw [if_neg h]

theorem filter_id_eq_nil (pid : Int) (l : List Medicine) (h : ∀ it ∈ l, it.id ≠ pid) :
    l.filter (fun it => it.id == pid) = [] := by
  induction l with
  | nil => rfl
  | cons a rest ih =>
    have ha : (a.id == pid) = false := by simp [h a (List.mem_cons_self _ _)]
    simp only [List.filter_cons, ha, Bool.false_eq_true, if_false]
    exact ih fun y hy => h y (List.mem_cons_of_mem _ hy)

/-! ### Claim theorems -/

/-- Claim C7: for every persisted cart file, every product and every
quantity `q ≤ 0`, `append_to_cart` is a no-op, silently ignored and not an
error: the persisted cart file is unchanged (the function returns before
the file is even read). -/
theorem append_to_cart_nonpositive_noop (rows : List CartRow) (med : Medicine) (qty : Int)
    (h : qty ≤ 0) : append_to_cart rows med qty = rows := by
  simp [append_to_cart, h]

theorem append_to_cart_nonpositive_noop_witness :
    append_to_cart [row_para] med_para 0 = [row_para] :=
  append_to_cart_nonpositive_noop [row_para] med_para 0 (by decide)

/-- Claim C3: checkout on a cart with zero entries reports the empty-cart
refusal, produces no receipt file, and leaves the cart file unchanged (in
particular no zero-total receipt is ever produced). -/
theorem empty_cart_checkout_refused (s : ShopState) (name address phone tid : String)
    (h : read_cart s.cart_file = []) :
    bill_process s name address phone tid = (s, some AppError.emptyCart) ∧
    (bill_process s name address phone tid).1.bills = s.bills ∧
    (bill_process s name address phone tid).1.cart_file = s.cart_file := by
  have he := bill_process_empty s name address phone tid h
  exact ⟨he, by rw [he], by rw [he]⟩

theorem empty_cart_checkout_refused_witness :
    bill_process ⟨[], []⟩ "Ada" "12 Main St" "555" "TRACK00001"
        = (⟨[], []⟩, some AppError.emptyCart) ∧
    (bill_process ⟨[], []⟩ "Ada" "12 Main St" "555" "TRACK00001").1.bills = [] ∧
    (bill_process ⟨[], []⟩ "Ada" "12 Main St" "555" "TRACK00001").1.cart_file = [] :=
  empty_cart_checkout_refused ⟨[], []⟩ "Ada" "12 Main St" "555" "TRACK00001" rfl

/-- Claim C4: after a successful checkout of a non-empty cart, the cart
store is cleared: `read_cart` returns zero entries and the persisted file
contains only the header row (the empty row list). -/
theorem checkout_clears_cart (s : ShopState) (name address phone tid : String)
    (h : read_cart s.cart_file ≠ []) :
    (bill_process s name address phone tid).2 = none ∧
    (bill_process s name address phone tid).1.cart_file = [] ∧
    read_cart (bill_process s name address phone tid).1.cart_file = [] := by
  rw [bill_process_nonempty s name address phone tid h]
  exact ⟨rfl, rfl, rfl⟩

theorem checkout_clears_cart_witness :
    (bill_process ⟨[row_para], []⟩ "Ada" "12 Main St" "555" "TRACK00001").2 = none ∧
    (bill_process ⟨[row_para], []⟩ "Ada" "12 Main St" "555" "TRACK00001").1.cart_file = [] ∧
    read_cart (bill_process ⟨[row_para], []⟩ "Ada" "12 Main St" "555"
        "TRACK00001").1.cart_file = [] :=
  checkout_clears_cart ⟨[row_para], []⟩ "Ada" "12 Main St" "555" "TRACK00001" (by decide)

/-- Claim C5: the grand total computed at checkout is exactly the sum over
all cart entries of unit cost times quantity (exact in the rational model,
hence to 2 decimal places); in particular, for the cart
`[(cost=20.00,qty=2),(cost=85.00,qty=1)]` the checkout total is `125.00`. -/
theorem checkout_total_correct :
    (∀ (s : ShopState) (name address phone tid : String),
        read_cart s.cart_file ≠ [] →
        ∃ r : Receipt,
          (bill_process s name address phone tid).1.bills = s.bills ++ [r] ∧
          r.total = ((read_cart s.cart_file).map
            fun it => it.cost * (it.quantity : ℚ)).sum) ∧
    ((bill_process ⟨[row_para, row_azith], []⟩ "Ada" "12 Main St" "555"
        "TRACK00001").1.bills).map Receipt.total = [125] := by
  constructor
  · intro s n a p t h
    rw [bill_process_nonempty s n a p t h]
    exact ⟨_, rfl, rfl⟩
  · have h : read_cart ([row_para, row_azith] : List CartRow) ≠ [] := by decide
    rw [bill_process_nonempty ⟨[row_para, row_azith], []⟩ "Ada" "12 Main St" "555"
        "TRACK00001" h]
    have hr : read_cart [row_para, row_azith]
        = [⟨101, "Paracetamol", "500mg", "Fever", (pyFloatOfStr "20.00").getD 0, 2⟩,
           ⟨103, "Azithromycin", "250mg", "Infection", (pyFloatOfStr "85.00").getD 0, 1⟩] := rfl
    have h20 : (pyFloatOfStr "20.00").getD 0 = (20 : ℚ) := by
      rw [show pyFloatOfStr "20.00"
          = some ((1 : ℚ) * (((20 : ℕ) : ℚ) + ((0 : ℕ) : ℚ) / (10 : ℚ) ^ (2 : ℕ))) from rfl]
      norm_num
    have h85 : (pyFloatOfStr "85.00").getD 0 = (85 : ℚ) := by
      rw [show pyFloatOfStr "85.00"
          = some ((1 : ℚ) * (((85 : ℕ) : ℚ) + ((0 : ℕ) : ℚ) / (10 : ℚ) ^ (2 : ℕ))) from rfl]
      norm_num
    simp only [List.nil_append, List.map_cons, List.map_nil, hr, h20, h85,
      List.sum_cons, List.sum_nil]
    norm_num

theorem checkout_total_correct_witness :
    ∃ r : Receipt,
      (bill_process ⟨[row_para], []⟩ "Bea" "2 Oak Ave" "556" "TRACK00002").1.bills
        = [] ++ [r] ∧
      r.total = ((read_cart [row_para]).map fun it => it.cost * (it.quantity : ℚ)).sum :=
  checkout_total_correct.1 ⟨[row_para], []⟩ "Bea" "2 Oak Ave" "556" "TRACK00002" (by decide)

/-- Claim C6 (refuted, code bug): the delete flow never validates that the
requested amount is positive, despite its own prompt advertising the range
`1..quantity`.  At the failing input (a cart holding 2 of product 101,
deleting amount `-3` of id 101) the code does not report any error and
does not abort: it runs `found.quantity -= qty_del`, raising the stored
quantity from 2 to 5, and persists the result. -/
theorem delete_accepts_nonpositive_amount :
    remove_quantity [⟨101, "Paracetamol", "500mg", "Fever", 20, 2⟩] 101 (-3)
      = Except.ok [⟨101, "Paracetamol", "500mg", "Fever", 20, 5⟩] := rfl

/-- Claim C9: persisting the cart obtained by loading a persisted cart
file reproduces an identical record set: the same id strings, the same
quantity strings, in the same order, with the same number of rows. -/
theorem cart_persistence_round_trip (items : List Medicine) :
    (write_cart_from_items (read_cart (write_cart_from_items items))).map CartRow.id
      = (write_cart_from_items items).map CartRow.id ∧
    (write_cart_from_items (read_cart (write_cart_from_items items))).map CartRow.quantity
      = (write_cart_from_items items).map CartRow.quantity ∧
    (write_cart_from_items (read_cart (write_cart_from_items items))).length
      = (write_cart_from_items items).length := by
  have h := read_cart_write items
  refine ⟨?_, ?_, ?_⟩
  · rw [h]
    unfold write_cart_from_items
    rw [List.map_map, List.map_map, List.map_map]
    rfl
  · rw [h]
    unfold write_cart_from_items
    rw [List.map_map, List.map_map, List.map_map]
    rfl
  · rw [h]
    unfold write_cart_from_items
    rw [List.length_map, List.length_map, List.length_map]

/-- Claim C10 (implicit): when `append_to_cart` merges a positive quantity
into an existing entry with the same product id, only the first matching
entry's quantity field changes: its name, intensity, disease and cost, all
other entries, and the order of entries are unchanged, and the incoming
product value object's attributes are discarded in favour of the stored
entry's; moreover with a positive quantity the file-level operation is
exactly read-merge-write. -/
theorem append_merge_frame :
    (∀ (med : Medicine) (qty : Int) (l1 : List Medicine) (e : Medicine) (l2 : List Medicine),
       0 < qty → (∀ x ∈ l1, x.id ≠ med.id) → e.id = med.id →
       append_items (l1 ++ e :: l2) med qty
         = l1 ++ { e with quantity := e.quantity + qty } :: l2) ∧
    (∀ (rows : List CartRow) (med : Medicine) (qty : Int), 0 < qty →
       append_to_cart rows med qty
         = write_cart_from_items (append_items (read_cart rows) med qty)) := by
  constructor
  · intro med qty l1 e l2 _ h1 h2
    exact append_items_first_match med qty l1 e l2 h1 h2
  · intro rows med qty hq
    unfold append_to_cart
    rw [if_neg (by omega)]

theorem append_merge_frame_witness :
    append_items ([⟨102, "Dolo", "650mg", "Fever", 30, 1⟩]
        ++ ⟨101, "Paracetamol", "500mg", "Fever", 20, 2⟩
          :: [⟨103, "Azithromycin", "250mg", "Infection", 85, 1⟩])
        ⟨101, "Generic", "1mg", "Pain", 999, 7⟩ 4
      = [⟨102, "Dolo", "650mg", "Fever", 30, 1⟩]
        ++ { (⟨101, "Paracetamol", "500mg", "Fever", 20, 2⟩ : Medicine) with
              quantity := (⟨101, "Paracetamol", "500mg", "Fever", 20, 2⟩ : Medicine).quantity + 4 }
          :: [⟨103, "Azithromycin", "250mg", "Infection", 85, 1⟩] :=
  append_merge_frame.1 ⟨101, "Generic", "1mg", "Pain", 999, 7⟩ 4
    [⟨102, "Dolo", "650mg", "Fever", 30, 1⟩]
    ⟨101, "Paracetamol", "500mg", "Fever", 20, 2⟩
    [⟨103, "Azithromycin", "250mg", "Infection", 85, 1⟩]
    (by decide) (by decide) rfl

/-- Claim C1: adding quantity `q1` and then `q2` (both positive) of the
same product id via `append_to_cart` to a cart not yet holding that id
yields a persisted cart whose read-back contains exactly one entry for
that id, with quantity `q1 + q2`, never two rows; more generally, every
cart file built from an empty cart by add and delete requests holds at
most one entry per product id. -/
theorem append_to_cart_merges_by_id :
    (∀ (rows : List CartRow) (med : Medicine) (q1 q2 : Int),
       0 < q1 → 0 < q2 → med.id ∉ (read_cart rows).map Medicine.id →
       ((read_cart (append_to_cart (append_to_cart rows med q1) med q2)).filter
           (fun it => it.id == med.id)).map Medicine.quantity = [q1 + q2] ∧
       ((read_cart (append_to_cart (append_to_cart rows med q1) med q2)).filter
           (fun it => it.id == med.id)).length = 1) ∧
    (∀ ops : List CartOp, ((read_cart (ops.foldl apply_op [])).map Medicine.id).Nodup) := by
  constructor
  · intro rows med q1 q2 hq1 hq2 hnot
    have hno : ∀ it ∈ read_cart rows, it.id ≠ med.id := by
      intro it hit heq
      exact hnot (heq ▸ List.mem_map_of_mem Medicine.id hit)
    have h1 : append_to_cart rows med q1
        = write_cart_from_items (read_cart rows ++ [{ med with quantity := q1 }]) := by
      rw [append_to_cart_pos rows med q1 (by omega),
        append_items_not_mem med q1 (read_cart rows) hno]
    have h2 : read_cart (append_to_cart rows med q1)
        = (read_cart rows).map reread ++ [reread { med with quantity := q1 }] := by
      rw [h1, read_cart_write, List.map_append]
      rfl
    have hno2 : ∀ x ∈ (read_cart rows).map reread, x.id ≠ med.id := by
      intro x hx
      obtain ⟨y, hy, rfl⟩ := List.mem_map.mp hx
      exact hno y hy
    have h3 : append_to_cart (append_to_cart rows med q1) med q2
        = write_cart_from_items ((read_cart rows).map reread
            ++ { reread { med with quantity := q1 } with
                  quantity := (reread { med with quantity := q1 }).quantity + q2 } :: []) := by
      rw [append_to_cart_pos _ med q2 (by omega), h2]
      exact congrArg write_cart_from_items
        (append_items_first_match med q2 ((read_cart rows).map reread)
          (reread { med with quantity := q1 }) [] hno2 rfl)
    rw [h3, read_cart_write, List.map_append, List.filter_append]
    have hnil : (((read_cart rows).map reread).map reread).filter
        (fun it => it.id == med.id) = [] := by
      apply filter_id_eq_nil
      intro x hx
      obtain ⟨y, hy, rfl⟩ := List.mem_map.mp hx
      exact hno2 y hy
    rw [hnil]
    have hsingle : ((({ reread { med with quantity := q1 } with
          quantity := (reread { med with quantity := q1 }).quantity + q2 } : Medicine)
            :: []).map reread).filter (fun it => it.id == med.id)
        = [reread { reread { med with quantity := q1 } with
            quantity := (reread { med with quantity := q1 }).quantity + q2 }] := by
      rw [List.map_cons, List.map_nil, List.filter_cons]
      simp only [show ((reread { reread { med with quantity := q1 } with
          quantity := (reread { med with quantity := q1 }).quantity + q2 }).id
            == med.id) = true from by simp [reread], if_true]
      rfl
    rw [hsingle]
    exact ⟨rfl, rfl⟩
  · exact foldl_apply_op_nodup

theorem append_to_cart_merges_by_id_witness :
    ((read_cart (append_to_cart (append_to_cart [] med_para 2) med_para 3)).filter
        (fun it => it.id == med_para.id)).map Medicine.quantity = [2 + 3] ∧
    ((read_cart (append_to_cart (append_to_cart [] med_para 2) med_para 3)).filter
        (fun it => it.id == med_para.id)).length = 1 :=
  append_to_cart_merges_by_id.1 [] med_para 2 3 (by decide) (by decide) (by decide)

/-- Claim C2: if the cart holds an entry with product id `p` and quantity
`q`, removing `a ≥ q` deletes the entry entirely (with all other entries
untouched); removing a positive `a < q` leaves the entry with quantity
`q - a` and all other entries, ids and their order unchanged; and removing
any amount for an id absent from the cart reports the not-found refusal
and leaves the cart file unchanged. -/
theorem remove_quantity_boundary :
    ∀ (rows : List CartRow) (pid amount : Int),
      ((∀ it ∈ read_cart rows, it.id ≠ pid) →
        delete_from_cart_step rows pid amount = (rows, some AppError.notFound)) ∧
      (∀ e, (read_cart rows).find? (fun it => it.id == pid) = some e →
        (e.quantity ≤ amount →
          ∃ out, remove_quantity (read_cart rows) pid amount = Except.ok out ∧
            (((read_cart rows).map Medicine.id).Nodup → ∀ it ∈ out, it.id ≠ pid) ∧
            out.filter (fun it => !(it.id == pid))
              = (read_cart rows).filter (fun it => !(it.id == pid))) ∧
        (0 < amount → amount < e.quantity →
          ∃ out, remove_quantity (read_cart rows) pid amount = Except.ok out ∧
            out.find? (fun it => it.id == pid)
              = some { e with quantity := e.quantity - amount } ∧
            out.map Medicine.id = (read_cart rows).map Medicine.id ∧
            out.filter (fun it => !(it.id == pid))
              = (read_cart rows).filter (fun it => !(it.id == pid)))) := by
  intro rows pid amount
  constructor
  · intro h
    have hfind : (read_cart rows).find? (fun it => it.id == pid) = none := by
      rw [List.find?_eq_none]
      intro x hx
      simp [h x hx]
    exact delete_step_eq_error rows pid amount AppError.notFound
      (remove_quantity_eq_notfound _ _ _ hfind)
  · intro e hfind
    constructor
    · intro hle
      refine ⟨(read_cart rows).eraseP (fun it => it.id == pid), ?_, ?_, ?_⟩
      · rw [remove_quantity_eq_found _ _ _ e hfind, if_pos hle]
      · intro hnd it hit
        exact eraseP_id_not_mem pid _ hnd it hit
      · exact eraseP_filter_ne pid _
    · intro _ hlt
      refine ⟨sub_qty_first (read_cart rows) pid amount, ?_, ?_, ?_, ?_⟩
      · rw [remove_quantity_eq_found _ _ _ e hfind, if_neg (by omega)]
      · rw [sub_qty_first_find? pid amount, hfind]
        rfl
      · exact sub_qty_first_map_id pid amount _
      · exact sub_qty_first_filter_ne pid amount _

theorem remove_quantity_boundary_witness :
    (delete_from_cart_step [row_para] 999 1 = ([row_para], some AppError.notFound)) ∧
    (∃ out, remove_quantity (read_cart [row_para]) 101 5 = Except.ok out ∧
       (((read_cart [row_para]).map Medicine.id).Nodup → ∀ it ∈ out, it.id ≠ 101) ∧
       out.filter (fun it => !(it.id == 101))
         = (read_cart [row_para]).filter (fun it => !(it.id == 101))) ∧
    (∃ out, remove_quantity (read_cart [row_para]) 101 1 = Except.ok out ∧
       out.find? (fun it => it.id == 101)
         = some { med_para_read with quantity := med_para_read.quantity - 1 } ∧
       out.map Medicine.id = (read_cart [row_para]).map Medicine.id ∧
       out.filter (fun it => !(it.id == 101))
         = (read_cart [row_para]).filter (fun it => !(it.id == 101))) :=
  ⟨(remove_quantity_boundary [row_para] 999 1).1 (by decide),
   ((remove_quantity_boundary [row_para] 101 5).2 med_para_read rfl).1 (by decide),
   ((remove_quantity_boundary [row_para] 101 1).2 med_para_read rfl).2 (by decide) (by decide)⟩

/-- Claim C8: `find_by_disease` returns exactly the catalog products whose
disease field equals the search term under case-insensitive,
whitespace-trimmed full-string comparison, in catalog order; the
approximate search returns those whose normalised disease field contains
the normalised term as a substring, and is surfaced only when the exact
search returns empty.  On the seeded catalog, searching "fever" exactly
returns Paracetamol and Dolo, searching "Fev" exactly returns nothing, and
the approximate search for "Fev" returns the same two products. -/
theorem search_exact_and_approx :
    (∀ (meds : List Medicine) (d : String) (m : Medicine),
       m ∈ find_by_disease meds d ↔ m ∈ meds ∧ pyNorm m.disease = pyNorm d) ∧
    (∀ (meds : List Medicine) (d : String), List.Sublist (find_by_disease meds d) meds) ∧
    (∀ (meds : List Medicine) (d : String) (m : Medicine),
       m ∈ find_approx meds d ↔ m ∈ meds ∧
         ∃ l1 l2, (pyNorm m.disease).data = l1 ++ (pyNorm d).data ++ l2) ∧
    (∀ (meds : List Medicine) (d : String) (l : List Medicine),
       place_order_search meds d = SearchOutcome.approximate l →
       find_by_disease meds d = [] ∧ l = find_approx meds d) ∧
    ((find_by_disease sample_store "fever").map Medicine.name = ["Paracetamol", "Dolo"]) ∧
    (find_by_disease sample_store "Fev" = []) ∧
    ((find_approx sample_store "Fev").map Medicine.name = ["Paracetamol", "Dolo"]) := by
  refine ⟨?_, ?_, ?_, ?_, by decide, by decide, by decide⟩
  · intro meds d m
    simp [find_by_disease, List.mem_filter]
  · intro meds d
    exact List.filter_sublist meds
  · intro meds d m
    simp [find_approx, List.mem_filter, pyContains, pyInStr_iff]
  · intro meds d l h
    by_cases he : (find_by_disease meds d).isEmpty = true
    · constructor
      · exact List.isEmpty_iff.mp he
      · have h2 : SearchOutcome.approximate (find_approx meds d) = SearchOutcome.approximate l := by
          rw [← h]
          simp only [place_order_search, he, if_true]
        exact (SearchOutcome.approximate.inj h2).symm
    · exact absurd (by simpa only [place_order_search, he, Bool.false_eq_true,
        if_false] using h) (by intro hx; exact SearchOutcome.noConfusion hx)

theorem search_exact_and_approx_witness :
    find_by_disease sample_store "Fev" = []
      ∧ find_approx sample_store "Fev" = find_approx sample_store "Fev" :=
  search_exact_and_approx.2.2.2.1 sample_store "Fev" (find_approx sample_store "Fev") rfl

/-- Counterexample to claim C1 as stated: on a persisted cart that already
holds 1 of product 101, adding 2 and then 3 of product 101 leaves a single
entry of quantity 6, not `2 + 3`: the universal "for every cart" fails for
carts already holding the product id (the merged quantity accumulates the
existing stock). -/
theorem append_to_cart_merges_by_id_counterexample :
    ¬(((read_cart (append_to_cart (append_to_cart
          [⟨"101", "Paracetamol", "500mg", "Fever", "20.00", "1"⟩] med_para 2) med_para 3)).filter
        (fun it => it.id == med_para.id)).map Medicine.quantity = [2 + 3]) := by
  decide

